import Mathlib

/-!
Verification of the `re-date.py` CSV reformatting utility.

The Python source is shallowly embedded: every helper function of the
script becomes a Lean definition of the same name, Python exceptions
become `Except String` results (the string is the message that
`print(e)` would show), and the file-handling conversion pass
`process_torque_csv_log` becomes a pure function from an abstract view
of the file system (input-file contents, output-file writability) to a
record of its observable effects (return value, printed lines, whether
each handle was closed, rows written).
-/

/-- Lowercase every character of a string; models Python `str.lower()`
for the ASCII data handled by the tool. -/
def lowerStr (s : String) : String :=
  String.mk (s.toList.map Char.toLower)

/-- The needle list is an initial segment of the haystack list. -/
def beginsWith : List Char → List Char → Bool
  | [], _ => true
  | _ :: _, [] => false
  | a :: as, b :: bs => a == b && beginsWith as bs

/-- The needle occurs contiguously somewhere in the haystack; models
the Python `in` operator on strings. -/
def containsSub (needle : List Char) : List Char → Bool
  | [] => needle.isEmpty
  | c :: rest => beginsWith needle (c :: rest) || containsSub needle rest

/-- Embedding of `is_substring_ignore_case` (re-date.py:14-22):
`substring.lower() in string.lower()`. -/
def is_substring_ignore_case (substring string : String) : Bool :=
  containsSub (lowerStr substring).toList (lowerStr string).toList

/-- Index-tracking loop of `find_index_of_datetime_column`
(re-date.py:32-38). -/
def find_index_aux : List String → Nat → Option Nat
  | [], _ => none
  | column :: rest, index =>
    if is_substring_ignore_case "time" column then some index
    else find_index_aux rest (index + 1)

/-- Embedding of `find_index_of_datetime_column` (re-date.py:24-38):
first index whose column name contains "time" ignoring case, else
`none`. -/
def find_index_of_datetime_column (column_list : List String) : Option Nat :=
  find_index_aux column_list 0

/-- Python `str.split(sep)` on a single-character separator, at the
level of character lists: splits at every occurrence, keeping empty
pieces, so the result always has (number of separators) + 1 pieces. -/
def splitCharAux (sep : Char) : List Char → List (List Char)
  | [] => [[]]
  | c :: rest =>
    let r := splitCharAux sep rest
    if c == sep then [] :: r
    else
      match r with
      | [] => [[c]]
      | h :: t => (c :: h) :: t

/-- Python `s.split(sep)` for a one-character separator. -/
def pySplit (sep : Char) (s : String) : List String :=
  (splitCharAux sep s.toList).map String.mk

/-- Digits of a numeral folded into a natural number. -/
def natOfDigits (l : List Char) : Nat :=
  l.foldl (fun a c => a * 10 + (c.toNat - 48)) 0

/-- All characters are ASCII digits. -/
def allDigits (l : List Char) : Bool :=
  l.all (fun c => c.isDigit)

/-- Day field of CPython `strptime` directive `%d`: one or two digits
with value 1..31, or a blank-padded single digit 1..9. -/
def parseDay (s : String) : Option Nat :=
  let l := s.toList
  if allDigits l = true ∧ (l.length = 1 ∨ l.length = 2) ∧
      1 ≤ natOfDigits l ∧ natOfDigits l ≤ 31 then
    some (natOfDigits l)
  else
    match l with
    | [' ', c] =>
      if c.isDigit = true ∧ c ≠ '0' then some (c.toNat - 48) else none
    | _ => none

/-- The twelve lowercase English month abbreviations matched by the
CPython `strptime` directive `%b` (the C locale), compared
case-insensitively. -/
def monthAbbrevs : List String :=
  ["jan", "feb", "mar", "apr", "may", "jun",
   "jul", "aug", "sep", "oct", "nov", "dec"]

/-- Position of a month abbreviation in the table, case-insensitively. -/
def monthIdx : List String → String → Nat → Option Nat
  | [], _, _ => none
  | m :: rest, s, i =>
    if lowerStr s = m then some i else monthIdx rest s (i + 1)

/-- Month field of `strptime` directive `%b`: 1..12. -/
def parseMonth (s : String) : Option Nat :=
  (monthIdx monthAbbrevs s 0).map (fun i => i + 1)

/-- Year field of `strptime` directive `%Y`: exactly four digits, and
at least `datetime.MINYEAR = 1`. -/
def parseYear (s : String) : Option Nat :=
  let l := s.toList
  if allDigits l = true ∧ l.length = 4 ∧ 1 ≤ natOfDigits l then
    some (natOfDigits l)
  else none

/-- Gregorian leap-year rule used by `datetime` validation. -/
def isLeapYear (y : Nat) : Bool :=
  (y % 4 == 0 && y % 100 != 0) || (y % 400 == 0)

/-- Number of days of a month, for `datetime`'s day-of-month check. -/
def daysInMonth (y m : Nat) : Nat :=
  if m = 2 then (if isLeapYear y then 29 else 28)
  else if m = 4 ∨ m = 6 ∨ m = 9 ∨ m = 11 then 30
  else 31

/-- Zero-pad to two digits (`strftime` directives `%m`, `%d`). -/
def pad2 (n : Nat) : String :=
  if n < 10 then "0" ++ toString n else toString n

/-- Zero-pad to four digits (`strftime` directive `%Y`). -/
def pad4 (n : Nat) : String :=
  if n < 10 then "000" ++ toString n
  else if n < 100 then "00" ++ toString n
  else if n < 1000 then "0" ++ toString n
  else toString n

/-- Embedding of `build_new_date_format1` (re-date.py:40-51):
`datetime.strptime(old_date, "%d-%b-%Y").strftime("%Y-%m-%d")`.
An input not matching the pattern raises `ValueError`, embedded as an
`Except.error` carrying the message. -/
def build_new_date_format1 (old_date : String) : Except String String :=
  match pySplit '-' old_date with
  | [ds, ms, ys] =>
    match parseDay ds, parseMonth ms, parseYear ys with
    | some d, some m, some y =>
      if d ≤ daysInMonth y m then
        .ok (pad4 y ++ "-" ++ pad2 m ++ "-" ++ pad2 d)
      else .error "ValueError: day is out of range for month"
    | _, _, _ => .error "ValueError: time data does not match format"
  | _ => .error "ValueError: time data does not match format"

/-- Embedding of `build_new_time_format1` (re-date.py:53-65):
`old_time.split(".")[0]` — the text before the first dot. -/
def build_new_time_format1 (old_time : String) : String :=
  (pySplit '.' old_time).headD ""

/-- Python tuple unpacking `a, b = parts` for a two-element target:
raises `ValueError` unless the list has exactly two elements. -/
def unpack2 (parts : List String) : Except String (String × String) :=
  match parts with
  | [a, b] => .ok (a, b)
  | [] => .error "ValueError: not enough values to unpack (expected 2, got 0)"
  | [_] => .error "ValueError: not enough values to unpack (expected 2, got 1)"
  | _ => .error "ValueError: too many values to unpack (expected 2)"

/-- Embedding of `build_new_datetime_format1` (re-date.py:67-87):
`date, time = old_datetime.split(" ")`, then the date is reformatted
only when `discard_date` is false, the time always has its
sub-seconds chopped. -/
def build_new_datetime_format1 (old_datetime : String)
    (discard_date : Bool) : Except String String :=
  match unpack2 (pySplit ' ' old_datetime) with
  | .error e => .error e
  | .ok (date, time) =>
    if discard_date then .ok (build_new_time_format1 time)
    else
      match build_new_date_format1 date with
      | .error e => .error e
      | .ok new_date => .ok (new_date ++ " " ++ build_new_time_format1 time)

/-- Index-tracking loop of `build_new_row` (re-date.py:101-110): each
column is copied, except the one at position `j`, which is passed
through `build_new_datetime_format1`; an exception there aborts the
whole row. The position runs over `Int` because the Python comparison
`index == datetime_column_index` is between arbitrary ints. -/
def build_new_row_aux (j : Int) (discard_date : Bool) :
    List String → Int → Except String (List String)
  | [], _ => .ok []
  | column :: rest, index =>
    if index = j then
      match build_new_datetime_format1 column discard_date with
      | .error e => .error e
      | .ok nc =>
        match build_new_row_aux j discard_date rest (index + 1) with
        | .error e => .error e
        | .ok rs => .ok (nc :: rs)
    else
      match build_new_row_aux j discard_date rest (index + 1) with
      | .error e => .error e
      | .ok rs => .ok (column :: rs)

/-- Embedding of `build_new_row` (re-date.py:89-110). The second
argument models the Python `datetime_column_index`: when the caller
passes `None` (no timestamp column found), the function's own
`assert(isinstance(datetime_column_index, int))` fails, raising an
`AssertionError`, whose `str()` — what `print(e)` shows — is the
empty string. -/
def build_new_row (row : List String) (datetime_column_index : Option Int)
    (discard_date : Bool) : Except String (List String) :=
  match datetime_column_index with
  | none => .error ""
  | some j => build_new_row_aux j discard_date row 0

/-- The row loop of `process_torque_csv_log` (re-date.py:132-138):
walks the data rows with a running 0-based index, writing the
transformed row only when `skip_every_nth_row > 1` and the index is
not divisible by it. Returns the rows actually written together with
the message of the exception that aborted the loop, if any. -/
def processRows (skip_every_nth_row : Int) (datetime_column_index : Option Int)
    (discard_date : Bool) :
    List (List String) → Nat → (List (List String) × Option String)
  | [], _ => ([], none)
  | row :: rest, index =>
    if 1 < skip_every_nth_row ∧ (index : Int) % skip_every_nth_row ≠ 0 then
      match build_new_row row datetime_column_index discard_date with
      | .error e => ([], some e)
      | .ok nr =>
        let p := processRows skip_every_nth_row datetime_column_index
          discard_date rest (index + 1)
        (nr :: p.1, p.2)
    else
      processRows skip_every_nth_row datetime_column_index discard_date
        rest (index + 1)

/-- Whether the data row at 0-based position `i` is kept by the
stride policy: its index modulo the stride is nonzero. -/
def keepIdx (skip_every_nth_row : Int) (i : Nat) : Bool :=
  decide ((i : Int) % skip_every_nth_row ≠ 0)

/-- Transform-and-emit every row of an indexed row list, stopping at
the first row whose transformation raises; used to state which rows
the conversion keeps. -/
def transformKept (datetime_column_index : Option Int) (discard_date : Bool) :
    List (Nat × List String) → (List (List String) × Option String)
  | [] => ([], none)
  | (_, row) :: rest =>
    match build_new_row row datetime_column_index discard_date with
    | .error e => ([], some e)
    | .ok nr =>
      let p := transformKept datetime_column_index discard_date rest
      (nr :: p.1, p.2)

/-- Observable outcome of one call to `process_torque_csv_log`: the
boolean return value, the lines printed, whether each file handle had
`close()` executed before the function returned, and the rows written
to the output file. -/
structure ProcessResult where
  returnValue : Bool
  printed : List String
  inputClosed : Bool
  outputClosed : Bool
  written : List (List String)

/-- Embedding of `process_torque_csv_log` (re-date.py:112-147) over an
abstract file system: `input` is the parsed row list of the input CSV
(`none` when `open` fails), `outputOk` says whether the output file
can be opened. The whole body sits in `try/except BaseException`: any
exception is printed after the fixed text "Error: " and turns into the
return value `False`; the two `close()` calls (re-date.py:140-141) are
reached only when no exception occurred, so every error path returns
with both handles still open. Reading the header of an empty file
raises `StopIteration`. -/
def process_torque_csv_log (input : Option (List (List String)))
    (outputOk : Bool) (skip_every_nth_row : Int) (discard_date : Bool) :
    ProcessResult :=
  match input with
  | none => ⟨false, ["Error: FileNotFoundError"], false, false, []⟩
  | some contents =>
    if outputOk then
      match contents with
      | [] => ⟨false, ["Error: StopIteration"], false, false, []⟩
      | column_headers :: rows =>
        match processRows skip_every_nth_row
            ((find_index_of_datetime_column column_headers).map
              (fun n => (n : Int)))
            discard_date rows 0 with
        | (ws, some e) =>
          ⟨false, ["Error: " ++ e], false, false, column_headers :: ws⟩
        | (ws, none) => ⟨true, [], true, true, column_headers :: ws⟩
    else ⟨false, ["Error: PermissionError"], false, false, []⟩

/-- Python `bool(s)` on a string: false exactly for the empty string. -/
def pyTruthyStr (s : String) : Bool :=
  s != ""

/-- Drop leading and trailing whitespace characters. -/
def stripWs (l : List Char) : List Char :=
  ((l.dropWhile Char.isWhitespace).reverse.dropWhile Char.isWhitespace).reverse

/-- Python `int(s)`: optional surrounding whitespace, optional sign,
then a nonempty digit string; anything else raises `ValueError`,
embedded as `none`. -/
def pyInt (s : String) : Option Int :=
  match stripWs s.toList with
  | '-' :: rest =>
    if rest ≠ [] ∧ allDigits rest = true then some (-(natOfDigits rest : Int))
    else none
  | '+' :: rest =>
    if rest ≠ [] ∧ allDigits rest = true then some (natOfDigits rest : Int)
    else none
  | rest =>
    if rest ≠ [] ∧ allDigits rest = true then some (natOfDigits rest : Int)
    else none

/-- What the `__main__` block decides to do: print the usage text, or
call `process_torque_csv_log` with the given arguments. -/
inductive MainAction where
  | usage : MainAction
  | run : String → String → Int → Bool → MainAction
  | noop : MainAction
deriving DecidableEq

/-- Embedding of the `__main__` dispatch (re-date.py:150-179) on the
full `sys.argv` (program name included). `none` models an uncaught
exception from `int(sys.argv[3])`. With more than four user
arguments, no branch applies and the script does nothing. -/
def mainDispatch : List String → Option MainAction
  | [] => some .usage
  | [_] => some .usage
  | [_, _] => some .usage
  | [_, a, b] => some (.run a b 0 true)
  | [_, a, b, c] => (pyInt c).map (fun n => .run a b n true)
  | [_, a, b, c, d] => (pyInt c).map (fun n => .run a b n (pyTruthyStr d))
  | _ => some .noop

/-! ### Lemmas about `pySplit` -/

theorem splitCharAux_ne_nil (sep : Char) (l : List Char) :
    splitCharAux sep l ≠ [] := by
  cases l with
  | nil => simp [splitCharAux]
  | cons c rest =>
    simp only [splitCharAux]
    by_cases hc : (c == sep) = true
    · simp [hc]
    · simp only [hc, if_neg]
      cases hr : splitCharAux sep rest <;> simp

theorem splitCharAux_length (sep : Char) (l : List Char) :
    (splitCharAux sep l).length = l.count sep + 1 := by
  induction l with
  | nil => simp [splitCharAux]
  | cons c rest ih =>
    simp only [splitCharAux, List.count_cons]
    by_cases hc : (c == sep) = true
    · simp [hc, ih]
    · simp only [hc, if_neg, if_false, Bool.false_eq_true]
      cases hr : splitCharAux sep rest with
      | nil => exact absurd hr (splitCharAux_ne_nil sep rest)
      | cons a b =>
        have := ih
        rw [hr] at this
        simp only [List.length_cons] at this ⊢
        omega

theorem splitCharAux_no_sep (sep : Char) (l : List Char)
    (h : ∀ c ∈ l, (c == sep) = false) : splitCharAux sep l = [l] := by
  induction l with
  | nil => rfl
  | cons c rest ih =>
    have hc : (c == sep) = false := h c (List.mem_cons_self c rest)
    have hrest : splitCharAux sep rest = [rest] :=
      ih (fun x hx => h x (List.mem_cons_of_mem c hx))
    simp [splitCharAux, hc, hrest]

theorem splitCharAux_single (sep : Char) (l1 l2 : List Char)
    (h1 : ∀ c ∈ l1, (c == sep) = false) (h2 : ∀ c ∈ l2, (c == sep) = false) :
    splitCharAux sep (l1 ++ sep :: l2) = [l1, l2] := by
  induction l1 with
  | nil =>
    simp only [List.nil_append, splitCharAux, beq_self_eq_true, if_pos]
    rw [splitCharAux_no_sep sep l2 h2]
  | cons c rest ih =>
    have hc : (c == sep) = false := h1 c (List.mem_cons_self c rest)
    have hrest := ih (fun x hx => h1 x (List.mem_cons_of_mem c hx))
    simp [splitCharAux, hc, hrest]

theorem toList_append_char (d t : String) :
    (d ++ " " ++ t).toList = d.toList ++ ' ' :: t.toList := by
  show (d ++ " " ++ t).data = d.data ++ ' ' :: t.data
  rw [String.data_append, String.data_append, List.append_assoc]
  rfl

theorem pySplit_two_parts (d t : String)
    (hd : ∀ c ∈ d.toList, (c == ' ') = false)
    (ht : ∀ c ∈ t.toList, (c == ' ') = false) :
    pySplit ' ' (d ++ " " ++ t) = [d, t] := by
  unfold pySplit
  rw [toList_append_char, splitCharAux_single ' ' d.toList t.toList hd ht]
  rfl

theorem pySplit_length (sep : Char) (s : String) :
    (pySplit sep s).length = s.toList.count sep + 1 := by
  unfold pySplit
  rw [List.length_map, splitCharAux_length]

/-! ### Lemmas about `find_index_of_datetime_column` -/

theorem find_index_aux_some :
    ∀ (cols : List String) (i0 j : Nat), find_index_aux cols i0 = some j →
      i0 ≤ j ∧ j - i0 < cols.length ∧
      is_substring_ignore_case "time" (cols.getD (j - i0) "") = true ∧
      (cols.take (j - i0)).all
        (fun c => !(is_substring_ignore_case "time" c)) = true := by
  intro cols
  induction cols with
  | nil => intro i0 j h; simp [find_index_aux] at h
  | cons c rest ih =>
    intro i0 j h
    simp only [find_index_aux] at h
    by_cases hc : is_substring_ignore_case "time" c = true
    · rw [if_pos hc] at h
      have hj : j = i0 := by
        have := Option.some.inj h
        omega
      subst hj
      simp [hc]
    · rw [if_neg hc] at h
      obtain ⟨h1, h2, h3, h4⟩ := ih (i0 + 1) j h
      have hk : j - i0 = (j - (i0 + 1)) + 1 := by omega
      refine ⟨by omega, ?_, ?_, ?_⟩
      · simp only [List.length_cons]; omega
      · rw [hk, List.getD_cons_succ]; exact h3
      · rw [hk, List.take_succ_cons, List.all_cons, h4]
        simp [hc]

theorem find_index_aux_none :
    ∀ (cols : List String) (i0 : Nat),
      (∀ c ∈ cols, is_substring_ignore_case "time" c = false) →
      find_index_aux cols i0 = none := by
  intro cols
  induction cols with
  | nil => intro i0 _; rfl
  | cons c rest ih =>
    intro i0 h
    have hc := h c (List.mem_cons_self c rest)
    simp only [find_index_aux, hc]
    exact ih (i0 + 1) (fun x hx => h x (List.mem_cons_of_mem c hx))

theorem find_index_aux_mem :
    ∀ (cols : List String) (i0 k : Nat), k < cols.length →
      is_substring_ignore_case "time" (cols.getD k "") = true →
      find_index_aux cols i0 ≠ none := by
  intro cols
  induction cols with
  | nil => intro i0 k hk _; simp at hk
  | cons c rest ih =>
    intro i0 k hk hget
    simp only [find_index_aux]
    by_cases hc : is_substring_ignore_case "time" c = true
    · simp [hc]
    · rw [if_neg hc]
      cases k with
      | zero => rw [List.getD_cons_zero] at hget; exact absurd hget hc
      | succ k =>
        rw [List.getD_cons_succ] at hget
        exact ih (i0 + 1) k (by simp at hk; omega) hget

/-! ### Lemmas about `build_new_row` -/

theorem build_new_row_aux_out_of_range (d : Bool) :
    ∀ (row : List String) (i0 j : Int),
      (j < i0 ∨ i0 + (row.length : Int) ≤ j) →
      build_new_row_aux j d row i0 = .ok row := by
  intro row
  induction row with
  | nil => intro i0 j _; rfl
  | cons c rest ih =>
    intro i0 j h
    have hne : ¬(i0 = j) := by
      simp only [List.length_cons] at h
      push_cast at h
      omega
    have hrest : build_new_row_aux j d rest (i0 + 1) = .ok rest := by
      apply ih
      simp only [List.length_cons] at h
      push_cast at h
      omega
    simp [build_new_row_aux, hne, hrest]

/-! ### Lemmas about `processRows` -/

theorem processRows_stride_le_one (N : Int) (dt : Option Int) (d : Bool)
    (hN : N ≤ 1) :
    ∀ (rows : List (List String)) (i0 : Nat),
      processRows N dt d rows i0 = ([], none) := by
  intro rows
  induction rows with
  | nil => intro i0; rfl
  | cons r rest ih =>
    intro i0
    have hc : ¬(1 < N ∧ (i0 : Int) % N ≠ 0) := by
      intro h
      omega
    simp only [processRows, if_neg hc]
    exact ih (i0 + 1)

theorem processRows_eq_transformKept (N : Int) (dt : Option Int) (d : Bool)
    (hN : 1 < N) :
    ∀ (rows : List (List String)) (i0 : Nat),
      processRows N dt d rows i0 =
        transformKept dt d
          ((List.enumFrom i0 rows).filter (fun p => keepIdx N p.1)) := by
  intro rows
  induction rows with
  | nil => intro i0; rfl
  | cons r rest ih =>
    intro i0
    have henum : List.enumFrom i0 (r :: rest)
        = (i0, r) :: List.enumFrom (i0 + 1) rest := rfl
    rw [henum, List.filter_cons]
    by_cases hk : keepIdx N i0 = true
    · have hcond : 1 < N ∧ (i0 : Int) % N ≠ 0 := by
        refine ⟨hN, ?_⟩
        simpa [keepIdx] using hk
      rw [if_pos hk]
      simp only [processRows, if_pos hcond, transformKept]
      cases hb : build_new_row r dt d with
      | error e => rfl
      | ok nr => simp only [ih (i0 + 1)]
    · have hcond : ¬(1 < N ∧ (i0 : Int) % N ≠ 0) := by
        intro h
        apply hk
        simp only [keepIdx]
        exact decide_eq_true h.2
      rw [if_neg hk]
      simp only [processRows, if_neg hcond]
      exact ih (i0 + 1)

theorem processRows_none_no_emit (N : Int) (d : Bool) :
    ∀ (rows : List (List String)) (i0 : Nat),
      (∀ k, k < rows.length → ¬(1 < N ∧ ((i0 + k : Nat) : Int) % N ≠ 0)) →
      processRows N none d rows i0 = ([], none) := by
  intro rows
  induction rows with
  | nil => intro i0 _; rfl
  | cons r rest ih =>
    intro i0 h
    have h0 : ¬(1 < N ∧ (i0 : Int) % N ≠ 0) := by
      have := h 0 (by simp)
      simpa using this
    simp only [processRows, if_neg h0]
    exact ih (i0 + 1) (fun k hk => by
      have := h (k + 1) (by simp only [List.length_cons]; omega)
      have harith : (i0 + 1 + k : Nat) = (i0 + (k + 1) : Nat) := by omega
      rw [harith]
      exact this)

theorem processRows_none_emit_fails (N : Int) (d : Bool) :
    ∀ (rows : List (List String)) (i0 k : Nat),
      k < rows.length → 1 < N → ((i0 + k : Nat) : Int) % N ≠ 0 →
      processRows N none d rows i0 = ([], some "") := by
  intro rows
  induction rows with
  | nil => intro i0 k hk _ _; simp at hk
  | cons r rest ih =>
    intro i0 k hk hN hmod
    by_cases h0 : (i0 : Int) % N ≠ 0
    · have hcond : 1 < N ∧ (i0 : Int) % N ≠ 0 := ⟨hN, h0⟩
      simp only [processRows, if_pos hcond]
      rfl
    · have hcond : ¬(1 < N ∧ (i0 : Int) % N ≠ 0) := by
        intro h
        exact h0 h.2
      simp only [processRows, if_neg hcond]
      cases k with
      | zero =>
        simp only [Nat.add_zero] at hmod
        exact absurd hmod h0
      | succ k =>
        refine ih (i0 + 1) k ?_ hN ?_
        · simp only [List.length_cons] at hk; omega
        · have harith : (i0 + 1 + k : Nat) = (i0 + (k + 1) : Nat) := by omega
          rw [harith]
          exact hmod

/-! ### Claims -/

/-- Claim C1 (code bug): the claim says that with a stride of at most 1
(the default 0 of the two-argument invocation) every data row is
transformed and emitted. The code does the opposite: the loop writes a
row only when `skip_every_nth_row > 1`, so with stride 0 the spec's own
end-to-end scenario produces a header-only output while still
returning `True` — contradicting the function's docstring ("Skip every
nth row if the third function argument is greater than 1") and the
usage text that presents the two-argument call as the bare-minimum
use. This theorem evaluates the embedded code at that failing input. -/
theorem claim_c1_stride_zero_drops_every_row :
    (process_torque_csv_log
      (some [["Time", "Speed"],
             ["22-Feb-2021 10:00:00.100", "50"],
             ["22-Feb-2021 10:00:01.200", "55"]]) true 0 true).written
      = [["Time", "Speed"]]
    ∧ (process_torque_csv_log
      (some [["Time", "Speed"],
             ["22-Feb-2021 10:00:00.100", "50"],
             ["22-Feb-2021 10:00:01.200", "55"]]) true 0 true).returnValue
      = true := ⟨rfl, rfl⟩

/-- Claim C2: for every stride N > 1 the conversion loop keeps
(transforms and emits) exactly the data rows whose 0-based position is
not divisible by N and drops the rows at positions divisible by N; in
particular with stride 3, of any 3 consecutive positions 3k, 3k+1,
3k+2 exactly the latter two are kept. -/
theorem claim_c2_stride_keeps_nondivisible (N : Int) (dt : Option Int)
    (d : Bool) (rows : List (List String)) (hN : 1 < N) :
    processRows N dt d rows 0 =
      transformKept dt d ((rows.enum).filter (fun p => keepIdx N p.1))
    ∧ (∀ i : Nat, keepIdx N i = true ↔ ¬((N : Int) ∣ (i : Int)))
    ∧ (∀ k : Nat, keepIdx 3 (3 * k) = false ∧ keepIdx 3 (3 * k + 1) = true ∧
        keepIdx 3 (3 * k + 2) = true) := by
  refine ⟨?_, ?_, ?_⟩
  · exact processRows_eq_transformKept N dt d hN rows 0
  · intro i
    simp only [keepIdx, decide_eq_true_eq]
    rw [Int.dvd_iff_emod_eq_zero]
  · intro k
    refine ⟨?_, ?_, ?_⟩ <;>
      simp only [keepIdx, decide_eq_true_eq, decide_eq_false_iff_not,
        not_not] <;>
      push_cast <;> omega

/-- Witness for C2 at stride 3 on three concrete rows. -/
theorem claim_c2_witness :
    (1 : Int) < 3 ∧
    (processRows 3 (some 99) true [["a"], ["b"], ["c"]] 0 =
       transformKept (some 99) true
         ((List.enum [["a"], ["b"], ["c"]]).filter (fun p => keepIdx 3 p.1))
     ∧ (∀ i : Nat, keepIdx 3 i = true ↔ ¬((3 : Int) ∣ (i : Int)))
     ∧ (∀ k : Nat, keepIdx 3 (3 * k) = false ∧ keepIdx 3 (3 * k + 1) = true ∧
         keepIdx 3 (3 * k + 2) = true)) :=
  ⟨by norm_num,
   claim_c2_stride_keeps_nondivisible 3 (some 99) true [["a"], ["b"], ["c"]]
     (by norm_num)⟩

/-- Claim C3: on an input made of a date part and a time part joined by
one space, `build_new_datetime_format1` returns the reformatted date, a
space and the reformatted time when `discard_date = false`, and the
reformatted time alone when `discard_date = true`; in particular
"22-Feb-2021 18:15:47.926" yields "2021-02-22 18:15:47" and
"18:15:47" respectively. -/
theorem claim_c3_reformat_datetime (date time new_date : String)
    (hd : date.toList.all (fun c => !(c == ' ')) = true)
    (ht : time.toList.all (fun c => !(c == ' ')) = true)
    (hparse : build_new_date_format1 date = .ok new_date) :
    build_new_datetime_format1 (date ++ " " ++ time) false
      = .ok (new_date ++ " " ++ build_new_time_format1 time)
    ∧ build_new_datetime_format1 (date ++ " " ++ time) true
      = .ok (build_new_time_format1 time)
    ∧ build_new_datetime_format1 "22-Feb-2021 18:15:47.926" false
      = .ok "2021-02-22 18:15:47"
    ∧ build_new_datetime_format1 "22-Feb-2021 18:15:47.926" true
      = .ok "18:15:47" := by
  have hd' : ∀ c ∈ date.toList, (c == ' ') = false := by
    intro c hc
    simpa using List.all_eq_true.mp hd c hc
  have ht' : ∀ c ∈ time.toList, (c == ' ') = false := by
    intro c hc
    simpa using List.all_eq_true.mp ht c hc
  have hsplit := pySplit_two_parts date time hd' ht'
  refine ⟨?_, ?_, rfl, rfl⟩
  · simp [build_new_datetime_format1, hsplit, unpack2, hparse]
  · simp [build_new_datetime_format1, hsplit, unpack2]

/-- Witness for C3 on the spec's example datetime. -/
theorem claim_c3_witness :
    build_new_datetime_format1 ("22-Feb-2021" ++ " " ++ "18:15:47.926") false
      = .ok ("2021-02-22" ++ " " ++ build_new_time_format1 "18:15:47.926")
    ∧ build_new_datetime_format1 ("22-Feb-2021" ++ " " ++ "18:15:47.926") true
      = .ok (build_new_time_format1 "18:15:47.926")
    ∧ build_new_datetime_format1 "22-Feb-2021 18:15:47.926" false
      = .ok "2021-02-22 18:15:47"
    ∧ build_new_datetime_format1 "22-Feb-2021 18:15:47.926" true
      = .ok "18:15:47" :=
  claim_c3_reformat_datetime "22-Feb-2021" "18:15:47.926" "2021-02-22"
    (by decide) (by decide) rfl

/-- Counterexample to C4 as stated: "a b c" contains a space, yet the
split step of `build_new_datetime_format1` fails, because the Python
unpacking `date, time = old_datetime.split(" ")` raises `ValueError`
for more than one space as well, not only for zero spaces. -/
theorem claim_c4_counterexample :
    ("a b c" : String).toList.contains ' ' = true
    ∧ build_new_datetime_format1 "a b c" true
      = .error "ValueError: too many values to unpack (expected 2)" :=
  ⟨rfl, rfl⟩

/-- Claim C4 amended: `build_new_datetime_format1` splits its input on
every space; the split-and-unpack step succeeds exactly when the input
contains exactly one space (the split has exactly two parts), and the
function fails with a `ValueError` whenever the number of spaces
differs from one — zero spaces or two or more spaces alike. -/
theorem claim_c4_amended (s : String) (discard_date : Bool) :
    ((pySplit ' ' s).length = 2 ↔ s.toList.count ' ' = 1)
    ∧ (s.toList.count ' ' ≠ 1 →
        ∃ e, build_new_datetime_format1 s discard_date = .error e)
    ∧ (s.toList.count ' ' = 1 →
        ∃ date time, pySplit ' ' s = [date, time] ∧
          build_new_datetime_format1 s true
            = .ok (build_new_time_format1 time)) := by
  refine ⟨?_, ?_, ?_⟩
  · rw [pySplit_length]
    omega
  · intro h
    have hlen : (pySplit ' ' s).length ≠ 2 := by
      rw [pySplit_length]
      omega
    cases hp : pySplit ' ' s with
    | nil =>
      refine ⟨"ValueError: not enough values to unpack (expected 2, got 0)", ?_⟩
      simp [build_new_datetime_format1, hp, unpack2]
    | cons a l1 =>
      cases l1 with
      | nil =>
        refine ⟨"ValueError: not enough values to unpack (expected 2, got 1)", ?_⟩
        simp [build_new_datetime_format1, hp, unpack2]
      | cons b l2 =>
        cases l2 with
        | nil =>
          rw [hp] at hlen
          simp at hlen
        | cons c l3 =>
          refine ⟨"ValueError: too many values to unpack (expected 2)", ?_⟩
          simp [build_new_datetime_format1, hp, unpack2]
  · intro h
    have hlen : (pySplit ' ' s).length = 2 := by
      rw [pySplit_length]
      omega
    cases hp : pySplit ' ' s with
    | nil => rw [hp] at hlen; simp at hlen
    | cons a l1 =>
      cases l1 with
      | nil => rw [hp] at hlen; simp at hlen
      | cons b l2 =>
        cases l2 with
        | cons c l3 => rw [hp] at hlen; simp at hlen
        | nil =>
          refine ⟨a, b, rfl, ?_⟩
          simp [build_new_datetime_format1, hp, unpack2]

/-- Witness for the amended C4 on an input with exactly one space. -/
theorem claim_c4_witness :
    ∃ date time, pySplit ' ' "a b" = [date, time] ∧
      build_new_datetime_format1 "a b" true
        = .ok (build_new_time_format1 time) :=
  (claim_c4_amended "a b" true).2.2 (by decide)

/-- Counterexample to C5 as stated: the index 5 is out of bounds for
the one-column row ["a"], yet `build_new_row` succeeds and returns the
row instead of failing with an IndexError. -/
theorem claim_c5_counterexample :
    ((["a"] : List String).length : Int) ≤ 5
    ∧ build_new_row ["a"] (some 5) true = .ok ["a"] :=
  ⟨by decide, rfl⟩

/-- Claim C5 amended: for every row and every out-of-bounds
`datetime_column_index` (negative, or at least the row length),
`build_new_row` raises nothing and returns the row unchanged — the
code iterates over the row comparing positions rather than indexing
into it, so no IndexError can occur. -/
theorem claim_c5_amended (row : List String) (j : Int) (d : Bool)
    (h : j < 0 ∨ (row.length : Int) ≤ j) :
    build_new_row row (some j) d = .ok row := by
  unfold build_new_row
  rcases h with h | h
  · exact build_new_row_aux_out_of_range d row 0 j (Or.inl h)
  · exact build_new_row_aux_out_of_range d row 0 j (Or.inr (by omega))

/-- Witness for the amended C5 at index 5 on a one-column row. -/
theorem claim_c5_witness :
    ((5 : Int) < 0 ∨ ((["a"] : List String).length : Int) ≤ 5)
    ∧ build_new_row ["a"] (some 5) true = .ok ["a"] :=
  ⟨Or.inr (by decide), claim_c5_amended ["a"] 5 true (Or.inr (by decide))⟩

/-- Counterexample to C6 as stated: a conversion aborted mid-stream by
a malformed row (stride 2, second data row has no space in its
timestamp) returns `False` with neither `close()` executed — the
function uses plain `open`/`close` inside `try`, not scoped resource
acquisition, so the error path skips both closes. -/
theorem claim_c6_counterexample :
    (process_torque_csv_log (some [["Time"], ["a"], ["b"]])
        true 2 true).returnValue = false
    ∧ (process_torque_csv_log (some [["Time"], ["a"], ["b"]])
        true 2 true).inputClosed = false
    ∧ (process_torque_csv_log (some [["Time"], ["a"], ["b"]])
        true 2 true).outputClosed = false :=
  ⟨rfl, rfl, rfl⟩

/-- Claim C6 amended: the two file handles are closed before the
conversion returns exactly on the error-free path (return value
`True`); on every path that raises — open failure, empty input,
malformed row mid-stream — the function returns `False` from the
`except` handler without executing either `close()`. -/
theorem claim_c6_amended (input : Option (List (List String)))
    (outputOk : Bool) (N : Int) (d : Bool) :
    ((process_torque_csv_log input outputOk N d).returnValue = true →
      (process_torque_csv_log input outputOk N d).inputClosed = true ∧
      (process_torque_csv_log input outputOk N d).outputClosed = true)
    ∧ ((process_torque_csv_log input outputOk N d).returnValue = false →
      (process_torque_csv_log input outputOk N d).inputClosed = false ∧
      (process_torque_csv_log input outputOk N d).outputClosed = false) := by
  unfold process_torque_csv_log
  cases input with
  | none => simp
  | some contents =>
    cases outputOk with
    | false => simp
    | true =>
      cases contents with
      | nil => simp
      | cons hdr rows =>
        simp only [if_true]
        split
        · simp
        · simp

/-- Witness for the amended C6 on an error-free conversion. -/
theorem claim_c6_witness :
    (process_torque_csv_log (some [["Time", "Speed"]]) true 0 true).inputClosed
      = true
    ∧ (process_torque_csv_log (some [["Time", "Speed"]]) true 0
        true).outputClosed = true :=
  (claim_c6_amended (some [["Time", "Speed"]]) true 0 true).1 rfl

/-- Claim C7: the conversion never propagates an exception — in the
embedding it always produces a `ProcessResult` — and on every input it
either returns `True` having printed nothing, or returns `False`
having printed exactly one line made of the fixed prefix "Error: "
followed by the description of the error that aborted the pass. -/
theorem claim_c7_catch_all (input : Option (List (List String)))
    (outputOk : Bool) (N : Int) (d : Bool) :
    ((process_torque_csv_log input outputOk N d).returnValue = true
      ∧ (process_torque_csv_log input outputOk N d).printed = [])
    ∨ ((process_torque_csv_log input outputOk N d).returnValue = false
      ∧ ∃ e, (process_torque_csv_log input outputOk N d).printed
          = ["Error: " ++ e]) := by
  unfold process_torque_csv_log
  cases input with
  | none => exact Or.inr ⟨rfl, "FileNotFoundError", rfl⟩
  | some contents =>
    cases outputOk with
    | false => exact Or.inr ⟨rfl, "PermissionError", rfl⟩
    | true =>
      cases contents with
      | nil => exact Or.inr ⟨rfl, "StopIteration", rfl⟩
      | cons hdr rows =>
        simp only [if_true]
        split
        · rename_i ws e heq
          exact Or.inr ⟨rfl, e, rfl⟩
        · exact Or.inl ⟨rfl, rfl⟩

/-- Claim C8: `find_index_of_datetime_column` returns the index of the
first column whose name contains "time" ignoring case — the returned
index is in range, its column matches, and every earlier column does
not — it returns some index whenever a matching column exists, and
`none` exactly when no column name contains "time"; the names "Time",
"DATETIME" and "LapTime" all match. -/
theorem claim_c8_find_first_time_column (cols : List String) :
    (∀ i, find_index_of_datetime_column cols = some i →
        i < cols.length ∧
        is_substring_ignore_case "time" (cols.getD i "") = true ∧
        (cols.take i).all
          (fun c => !(is_substring_ignore_case "time" c)) = true)
    ∧ (cols.all (fun c => !(is_substring_ignore_case "time" c)) = true →
        find_index_of_datetime_column cols = none)
    ∧ (∀ i, i < cols.length →
        is_substring_ignore_case "time" (cols.getD i "") = true →
        find_index_of_datetime_column cols ≠ none)
    ∧ (is_substring_ignore_case "time" "Time" = true
       ∧ is_substring_ignore_case "time" "DATETIME" = true
       ∧ is_substring_ignore_case "time" "LapTime" = true) := by
  refine ⟨?_, ?_, ?_, rfl, rfl, rfl⟩
  · intro i h
    obtain ⟨h1, h2, h3, h4⟩ := find_index_aux_some cols 0 i h
    rw [Nat.sub_zero] at h2 h3 h4
    exact ⟨h2, h3, h4⟩
  · intro h
    apply find_index_aux_none
    intro c hc
    simpa using List.all_eq_true.mp h c hc
  · intro i hi hget
    exact find_index_aux_mem cols 0 i hi hget

/-- Witness for C8: on the header ["Speed", "GPS Time"] the function
returns index 1, whose column matches while the earlier one does not. -/
theorem claim_c8_witness :
    1 < (["Speed", "GPS Time"] : List String).length
    ∧ is_substring_ignore_case "time"
        ((["Speed", "GPS Time"] : List String).getD 1 "") = true
    ∧ ((["Speed", "GPS Time"] : List String).take 1).all
        (fun c => !(is_substring_ignore_case "time" c)) = true :=
  (claim_c8_find_first_time_column ["Speed", "GPS Time"]).1 1 rfl

/-- Counterexample to C9 as stated: on a header with no "time" column
and stride 2, the conversion does not emit the data rows unchanged —
it writes only the header and returns `False`, because the `None`
column index trips `build_new_row`'s isinstance assertion and the
resulting AssertionError (empty description) aborts the pass. -/
theorem claim_c9_counterexample :
    (process_torque_csv_log (some [["a", "b"], ["x", "y"], ["z", "w"]])
        true 2 true).written = [["a", "b"]]
    ∧ (process_torque_csv_log (some [["a", "b"], ["x", "y"], ["z", "w"]])
        true 2 true).returnValue = false
    ∧ (process_torque_csv_log (some [["a", "b"], ["x", "y"], ["z", "w"]])
        true 2 true).printed = ["Error: "] :=
  ⟨rfl, rfl, rfl⟩

/-- Claim C9 amended: when no header name contains "time", no data row
is ever emitted at all — the output holds the header only. With stride
at most 1 (or fewer than two data rows, so that the stride filter
selects nothing) the loop body never runs and the conversion returns
`True`; otherwise the first row selected for emission raises an
AssertionError inside `build_new_row` (the `None` index fails the
isinstance assertion) and the conversion returns `False`. -/
theorem claim_c9_amended (hdr : List String) (rows : List (List String))
    (N : Int) (d : Bool)
    (h : hdr.all (fun c => !(is_substring_ignore_case "time" c)) = true) :
    (process_torque_csv_log (some (hdr :: rows)) true N d).written = [hdr]
    ∧ ((process_torque_csv_log (some (hdr :: rows)) true N d).returnValue
        = true ↔ (N ≤ 1 ∨ rows.length ≤ 1)) := by
  have hfind : find_index_of_datetime_column hdr = none := by
    apply find_index_aux_none
    intro c hc
    simpa using List.all_eq_true.mp h c hc
  by_cases hcase : N ≤ 1 ∨ rows.length ≤ 1
  · have hrows : processRows N none d rows 0 = ([], none) := by
      rcases hcase with hN | hlen
      · exact processRows_stride_le_one N none d hN rows 0
      · apply processRows_none_no_emit
        intro k hk hcontra
        have hk0 : k = 0 := by omega
        subst hk0
        have hz : ((0 + 0 : Nat) : Int) % N = 0 := by simp
        exact hcontra.2 hz
    have hres : process_torque_csv_log (some (hdr :: rows)) true N d
        = ⟨true, [], true, true, [hdr]⟩ := by
      simp [process_torque_csv_log, hfind, hrows]
    rw [hres]
    exact ⟨rfl, by simp [hcase]⟩
  · push_neg at hcase
    obtain ⟨hN, hlen⟩ := hcase
    have hN' : 1 < N := by omega
    have hrows : processRows N none d rows 0 = ([], some "") := by
      apply processRows_none_emit_fails N d rows 0 1 (by omega) hN'
      have h1 : ((0 + 1 : Nat) : Int) % N = 1 := by
        have : ((0 + 1 : Nat) : Int) = 1 := by norm_num
        rw [this]
        exact Int.emod_eq_of_lt (by norm_num) hN'
      rw [h1]
      norm_num
    have hres : process_torque_csv_log (some (hdr :: rows)) true N d
        = ⟨false, ["Error: "], false, false, [hdr]⟩ := by
      simp [process_torque_csv_log, hfind, hrows]
    rw [hres]
    constructor
    · rfl
    · constructor
      · intro hfalse
        exact absurd hfalse (by simp)
      · intro habs
        rcases habs with habs | habs
        · omega
        · omega

/-- Witness for the amended C9: header without a time column, two data
rows, stride 2 — header-only output and a failing return value. -/
theorem claim_c9_witness :
    (["a", "b"] : List String).all
      (fun c => !(is_substring_ignore_case "time" c)) = true
    ∧ ((process_torque_csv_log
          (some [["a", "b"], ["x", "y"], ["z", "w"]]) true 2 true).written
        = [["a", "b"]]
      ∧ ((process_torque_csv_log
            (some [["a", "b"], ["x", "y"], ["z", "w"]]) true 2
            true).returnValue = true
          ↔ ((2 : Int) ≤ 1 ∨
            ([["x", "y"], ["z", "w"]] : List (List String)).length ≤ 1))) :=
  ⟨by decide,
   claim_c9_amended ["a", "b"] [["x", "y"], ["z", "w"]] 2 true (by decide)⟩

/-- Claim C10: in the five-entry command line (program name plus four
arguments) the fourth user argument goes through Python's generic
string truthiness, so every nonempty string — the literal "False"
included — yields `discard_date = true`, and a true discard flag makes
the timestamp column keep only the time of day. -/
theorem claim_c10_false_string_is_truthy (a0 a1 a2 a3 s : String)
    (n : Int) (hint : pyInt a3 = some n) (hs : s ≠ "") :
    mainDispatch [a0, a1, a2, a3, s] = some (.run a1 a2 n true)
    ∧ pyTruthyStr "False" = true
    ∧ mainDispatch ["re-date.py", "input.csv", "output.csv", "3", "False"]
        = some (.run "input.csv" "output.csv" 3 true)
    ∧ build_new_datetime_format1 "22-Feb-2021 18:15:47.926" true
        = .ok "18:15:47" := by
  refine ⟨?_, rfl, by decide, rfl⟩
  have htruthy : pyTruthyStr s = true := by
    simp [pyTruthyStr, hs]
  simp [mainDispatch, hint, htruthy]

/-- Witness for C10 with stride string "7" and fourth argument
"False". -/
theorem claim_c10_witness :
    mainDispatch ["prog", "in.csv", "out.csv", "7", "False"]
      = some (.run "in.csv" "out.csv" 7 true)
    ∧ pyTruthyStr "False" = true
    ∧ mainDispatch ["re-date.py", "input.csv", "output.csv", "3", "False"]
        = some (.run "input.csv" "output.csv" 3 true)
    ∧ build_new_datetime_format1 "22-Feb-2021 18:15:47.926" true
        = .ok "18:15:47" :=
  claim_c10_false_string_is_truthy "prog" "in.csv" "out.csv" "7" "False" 7
    (by decide) (by decide)

example : build_new_date_format1 "22-Feb-2021" = .ok "2021-02-22" := rfl
example : build_new_time_format1 "18:15:47.926" = "18:15:47" := rfl
example : build_new_datetime_format1 "22-Feb-2021 18:15:47.926" false
    = .ok "2021-02-22 18:15:47" := rfl
example : build_new_datetime_format1 "22-Feb-2021 18:15:47.926" true
    = .ok "18:15:47" := rfl
example : find_index_of_datetime_column ["Speed", "GPS Time"] = some 1 := rfl
example : build_new_row ["a"] (some 5) true = .ok ["a"] := rfl
example : build_new_row ["x", "y"] none true = .error "" := rfl
example :
    (process_torque_csv_log
      (some [["Time", "Speed"],
             ["22-Feb-2021 10:00:00.100", "50"],
             ["22-Feb-2021 10:00:01.200", "55"]]) true 0 true).written
    = [["Time", "Speed"]] := rfl
example :
    (process_torque_csv_log (some [["Time"], ["a"], ["b"]]) true 2 true)
    = ⟨false,
       ["Error: ValueError: not enough values to unpack (expected 2, got 1)"],
       false, false, [["Time"]]⟩ := rfl
example : pyInt "3" = some 3 := by decide
example : mainDispatch ["re-date.py", "i.csv", "o.csv", "3", "False"]
    = some (.run "i.csv" "o.csv" 3 true) := by decide
example :
    (process_torque_csv_log
      (some [["Time", "Speed"],
             ["22-Feb-2021 10:00:00.100", "50"],
             ["22-Feb-2021 10:00:01.200", "55"],
             ["22-Feb-2021 10:00:02.300", "60"]]) true 3 false).written
    = [["Time", "Speed"],
       ["2021-02-22 10:00:01", "55"],
       ["2021-02-22 10:00:02", "60"]] := by decide
